import Mathlib

/-!
# Verification of the vbus packet reader (src/vbus.c, src/vbus.h)

Shallow embedding of the vbus framing/parsing library.  Bytes are
modelled as `Nat` (the C code reads `uint8_t`, so byte values are
`< 256`; wire bytes other than the sync marker additionally have the
top bit clear).  8-bit arithmetic is made explicit with `% 256`; the
C bitwise complement `~sum` of a `uint8_t` value `sum < 256` is
`255 - sum`.

The byte stream fed to the worker thread is a finite `List Nat`;
exhausting the list models `read` returning something other than 1
(end-of-stream or a read error), which in the C code makes
`vbus_getc` call `vbus_fini` / `pthread_exit`.
-/

namespace Vbus

/-- Constant `VBUS_SYNC` from vbus.c. -/
def VBUS_SYNC : Nat := 0xaa

/-- Constant `VBUS_WIRE_HDR` from vbus.c. -/
def VBUS_WIRE_HDR : Nat := 9

/-- Constant `VBUS_WIRE_FRAME` from vbus.c. -/
def VBUS_WIRE_FRAME : Nat := 6

/-- Constant `VBUS_FRAME_LEN` from vbus.c. -/
def VBUS_FRAME_LEN : Nat := 4

/-- The nonnegative fields of `struct vbus_pkt` (vbus.h), with the
flexible array member `aux_data` as a list of bytes. -/
structure vbus_pkt where
  dst : Nat
  src : Nat
  cmd : Nat
  proto : Nat
  frames : Nat
  aux_data : List Nat
  deriving DecidableEq, Repr

/-- The summation loop of `vbus_crc_ok` (vbus.c lines 103-106):
`sum` is a `uint8_t` accumulating `buffer[i]` for `i < len - 1`,
so every addition wraps mod 256.  Out-of-range indices (which the C
call sites never produce) read as 0. -/
def vbus_crc_sum (buffer : List Nat) (len : Nat) : Nat :=
  (List.range (len - 1)).foldl (fun sum i => (sum + buffer.getD i 0) % 256) 0

/-- Function `vbus_crc_ok` (vbus.c lines 100-111): sum the first `len - 1`
bytes in 8-bit arithmetic, complement (`255 - ·` on a value `< 256`),
mask with `0x7f`, and compare with `buffer[len - 1]`. -/
def vbus_crc_ok (buffer : List Nat) (len : Nat) : Bool :=
  ((255 - vbus_crc_sum buffer len) &&& 0x7f) == buffer.getD (len - 1) 0

/-- The checksum predicate as the spec words it (spec section 4.1):
"Computes the 8-bit sum of `bytes[0..n-1]`, bitwise-negates it,
clears its top bit, and compares against `bytes[n-1]`" — i.e. the
last byte must equal the masked complement of the mod-256 sum of all
bytes before it. -/
def spec_crc_ok (buffer : List Nat) : Bool :=
  buffer.getLastD 0 == ((255 - buffer.dropLast.sum % 256) &&& 0x7f)

/-- Function `vbus_parse_header` (vbus.c lines 113-131): checksum-validate the
9 header bytes, then assemble the packet fields.  The `malloc` that
sizes the packet is treated as succeeding (its failure yields `NULL`,
i.e. no packet, exactly like a checksum failure); `aux_data` starts
empty and is filled by the frame loop of `vbus_thread`. -/
def vbus_parse_header (buffer : List Nat) : Option vbus_pkt :=
  if ¬ vbus_crc_ok buffer VBUS_WIRE_HDR then none
  else some
    { dst := buffer.getD 0 0 ||| (buffer.getD 1 0 <<< 8)
      src := buffer.getD 2 0 ||| (buffer.getD 3 0 <<< 8)
      proto := buffer.getD 4 0
      cmd := buffer.getD 5 0 ||| (buffer.getD 6 0 <<< 8)
      frames := buffer.getD 7 0
      aux_data := [] }

/-- Function `vbus_getc` (vbus.c lines 89-98) on the modelled stream: return
the next byte and the rest of the stream, or `none` when `read` does
not deliver a byte (end-of-stream / read error), in which case the C
code calls `vbus_fini` and never returns. -/
def vbus_getc : List Nat → Option (Nat × List Nat)
  | [] => none
  | b :: rest => some (b, rest)

/-- The byte-at-a-time read loops of `vbus_thread` (vbus.c lines
172-176) and `vbus_read_frame` (lines 139-143): read `n` bytes, and
abort as soon as a byte with the top bit set is seen (that byte is
consumed).  Result: `none` when the stream ends mid-read (worker
terminates); `some (none, s')` when a top-bit byte aborted the read;
`some (some buf, s')` on success. -/
def vbus_read_bytes : Nat → List Nat → Option (Option (List Nat) × List Nat)
  | 0, s => some (some [], s)
  | n + 1, s =>
    match vbus_getc s with
    | none => none
    | some (b, s') =>
      if b &&& 0x80 ≠ 0 then some (none, s')
      else
        match vbus_read_bytes n s' with
        | none => none
        | some (none, s'') => some (none, s'')
        | some (some bs, s'') => some (some (b :: bs), s'')

/-- The four assignments of `vbus_read_frame` (vbus.c lines 146-149),
exactly as C precedence parses them: `frame[i] = buffer[i] |
(buffer[4] & mask) ? 0x80 : 0` is `(buffer[i] | (buffer[4] & mask))
? 0x80 : 0`, a conditional whose test is the bitwise OR. -/
def vbus_frame_reconstruct (buffer : List Nat) : List Nat :=
  [ if (buffer.getD 0 0 ||| (buffer.getD 4 0 &&& 1)) ≠ 0 then 0x80 else 0
  , if (buffer.getD 1 0 ||| (buffer.getD 4 0 &&& 2)) ≠ 0 then 0x80 else 0
  , if (buffer.getD 2 0 ||| (buffer.getD 4 0 &&& 4)) ≠ 0 then 0x80 else 0
  , if (buffer.getD 3 0 ||| (buffer.getD 4 0 &&& 8)) ≠ 0 then 0x80 else 0 ]

/-- Frame reconstruction as spec section 4.3 words it: "Reconstruct
logical byte *i* = `wireByte[i] | (topBitSet(byte4, i) ? 0x80 : 0)`"
— a bitwise merge of the low 7 bits with a conditionally injected top
bit. -/
def spec_frame_reconstruct (buffer : List Nat) : List Nat :=
  [ buffer.getD 0 0 ||| (if buffer.getD 4 0 &&& 1 ≠ 0 then 0x80 else 0)
  , buffer.getD 1 0 ||| (if buffer.getD 4 0 &&& 2 ≠ 0 then 0x80 else 0)
  , buffer.getD 2 0 ||| (if buffer.getD 4 0 &&& 4 ≠ 0 then 0x80 else 0)
  , buffer.getD 3 0 ||| (if buffer.getD 4 0 &&& 8 ≠ 0 then 0x80 else 0) ]

/-- Function `vbus_read_frame` (vbus.c lines 133-152) on the modelled stream:
read 6 wire bytes (aborting on a top-bit byte), checksum-validate
them, and produce the 4 reconstructed payload bytes.  `none` =
stream ended (worker terminates); `some (none, s')` = frame rejected
(the C function returns -1); `some (some payload, s')` = success. -/
def vbus_read_frame (s : List Nat) : Option (Option (List Nat) × List Nat) :=
  match vbus_read_bytes VBUS_WIRE_FRAME s with
  | none => none
  | some (none, s') => some (none, s')
  | some (some buffer, s') =>
    if ¬ vbus_crc_ok buffer VBUS_WIRE_FRAME then some (none, s')
    else some (some (vbus_frame_reconstruct buffer), s')

/-- The frame loop of `vbus_thread` (vbus.c lines 180-183): read
`n` frames in order, concatenating their reconstructed payloads
(frame `i` is written at `aux_data + i * VBUS_FRAME_LEN`).  Any
frame failure rejects the whole sequence (`goto top`). -/
def vbus_read_frames : Nat → List Nat → Option (Option (List Nat) × List Nat)
  | 0, s => some (some [], s)
  | n + 1, s =>
    match vbus_read_frame s with
    | none => none
    | some (none, s') => some (none, s')
    | some (some f, s') =>
      match vbus_read_frames n s' with
      | none => none
      | some (none, s'') => some (none, s'')
      | some (some fs, s'') => some (some (f ++ fs), s'')

/-- The sync hunt of `vbus_thread` (vbus.c lines 169-171):
`do { ch = vbus_getc(sc); } while (ch != VBUS_SYNC)`.  `none` =
stream ended while hunting. -/
def vbus_hunt : List Nat → Option (List Nat)
  | [] => none
  | b :: rest => if b == VBUS_SYNC then some rest else vbus_hunt rest

/-- What one iteration of the `while (true)` body of `vbus_thread`
(vbus.c lines 167-186) does to the stream. -/
inductive StepResult where
  /-- a `vbus_getc` failed: `vbus_fini` runs and the thread exits. -/
  | fini : StepResult
  /-- back to the top of the loop (`goto top` after a top-bit byte or
  a failed frame, or `continue` after a failed header) with the given
  remaining stream; nothing was delivered. -/
  | rehunt : List Nat → StepResult
  /-- a fully validated packet was passed to the filter. -/
  | delivered : vbus_pkt → List Nat → StepResult
  deriving DecidableEq, Repr

/-- One iteration of the `vbus_thread` loop (vbus.c lines 167-186):
hunt for `VBUS_SYNC`, read the 9 header bytes (top-bit bytes abort to
`top`), parse the header (`continue` on rejection), read
`pkt->frames` frames (failure aborts to `top`), then call the filter
with the completed packet. -/
def vbus_step (s : List Nat) : StepResult :=
  match vbus_hunt s with
  | none => .fini
  | some s1 =>
    match vbus_read_bytes VBUS_WIRE_HDR s1 with
    | none => .fini
    | some (none, s2) => .rehunt s2
    | some (some buffer, s2) =>
      match vbus_parse_header buffer with
      | none => .rehunt s2
      | some pkt =>
        match vbus_read_frames pkt.frames s2 with
        | none => .fini
        | some (none, s3) => .rehunt s3
        | some (some payload, s3) =>
          .delivered { pkt with aux_data := payload } s3

/-- Events of a worker run: a call the worker makes to the
caller-supplied filter (`sc->filter`) is either a decoded packet
(vbus.c line 184) or the final `NULL` sentinel issued by
`vbus_cleanup` (line 69). -/
inductive vbus_event where
  | pkt : vbus_pkt → vbus_event
  | sentinel : vbus_event
  deriving DecidableEq, Repr

/-- Function `vbus_fini` (vbus.c lines 82-87): called by `vbus_getc`
when a read fails; it runs `pthread_exit(NULL)`, so the worker
thread's exit value is the null pointer (modelled as 0) — whatever
I/O error code (`errno`) the failing read left behind is not
consulted. -/
def vbus_fini (errno : Nat) : Nat := 0

/-- Function `vbus_join` (vbus.c lines 230-238): `pthread_join`
obtains the worker thread's exit value and `vbus_join` returns
exactly that value to the caller. -/
def vbus_join (run : List vbus_event × Nat) : Nat := run.2

/-- The individual actions of `vbus_cleanup` (vbus.c lines 59-72), in
program order. -/
inductive CleanupAction where
  /-- restore the saved device configuration:
  `tcsetattr(sc->fd, TCSANOW, &sc->termios)`. -/
  | restore_termios : CleanupAction
  /-- close the device: `close(sc->fd)`. -/
  | close_fd : CleanupAction
  /-- the sentinel filter call: `sc->filter(sc->argp, NULL)`. -/
  | filter_sentinel : CleanupAction
  /-- release the worker state: `free(sc)`. -/
  | free_softc : CleanupAction
  deriving DecidableEq, Repr

/-- Function `vbus_cleanup` (vbus.c lines 59-72) as the ordered list
of actions it performs for a non-NULL softc: restore the terminal
configuration if `do_stty` was set, close the descriptor if it is
valid, call the filter once with the `NULL` sentinel if a filter was
registered, then free the softc. -/
def vbus_cleanup (do_stty : Bool) (fd_valid : Bool) (has_filter : Bool) :
    List CleanupAction :=
  (if do_stty then [CleanupAction.restore_termios] else []) ++
  (if fd_valid then [CleanupAction.close_fd] else []) ++
  (if has_filter then [CleanupAction.filter_sentinel] else []) ++
  [CleanupAction.free_softc]

/-- The condition on vbus.c line 207 deciding whether `open(2)` is
called, for a non-null filename (a NULL `vbus_fn` would make the C
expression dereference NULL in `strcmp`): `vbus_fn != NULL ||
strcmp(vbus_fn, "-") != 0`, where `vbus_fn != NULL` is `true` for
every non-null pointer, so the `||` short-circuits. -/
def vbus_should_open (vbus_fn : String) : Bool :=
  true || (vbus_fn != "-")

theorem vbus_hunt_length {s s' : List Nat} (h : vbus_hunt s = some s') :
    s'.length < s.length := by
  induction s with
  | nil => simp [vbus_hunt] at h
  | cons b rest ih =>
    simp only [vbus_hunt] at h
    by_cases hb : b == VBUS_SYNC
    · simp [hb] at h
      subst h
      simp
    · simp [hb] at h
      exact Nat.lt_trans (ih h) (by simp)

theorem vbus_read_bytes_length :
    ∀ {n : Nat} {s s' : List Nat} {r : Option (List Nat)},
      vbus_read_bytes n s = some (r, s') → s'.length ≤ s.length := by
  intro n
  induction n with
  | zero =>
    intro s s' r h
    simp [vbus_read_bytes] at h
    simp [h]
  | succ n ih =>
    intro s s' r h
    match s with
    | [] => simp [vbus_read_bytes, vbus_getc] at h
    | b :: rest =>
      simp only [vbus_read_bytes, vbus_getc] at h
      by_cases hb : b &&& 0x80 ≠ 0
      · simp [hb] at h
        refine Nat.le_trans ?_ (Nat.le_succ rest.length)
        simp [← h.2]
      · simp only [hb, if_false, ite_false] at h
        split at h
        · simp at h
        · rename_i s'' heq
          simp only [Option.some.injEq, Prod.mk.injEq] at h
          refine Nat.le_trans ?_ (Nat.le_succ rest.length)
          rw [← h.2]
          exact ih heq
        · rename_i bs s'' heq
          simp only [Option.some.injEq, Prod.mk.injEq] at h
          refine Nat.le_trans ?_ (Nat.le_succ rest.length)
          rw [← h.2]
          exact ih heq

theorem vbus_read_frame_length {s s' : List Nat} {r : Option (List Nat)}
    (h : vbus_read_frame s = some (r, s')) : s'.length ≤ s.length := by
  simp only [vbus_read_frame] at h
  split at h
  · simp at h
  · rename_i s'' heq
    simp only [Option.some.injEq, Prod.mk.injEq] at h
    rw [← h.2]
    exact vbus_read_bytes_length heq
  · rename_i buf s'' heq
    split at h <;>
    · simp only [Option.some.injEq, Prod.mk.injEq] at h
      rw [← h.2]
      exact vbus_read_bytes_length heq

theorem vbus_read_frames_length :
    ∀ {n : Nat} {s s' : List Nat} {r : Option (List Nat)},
      vbus_read_frames n s = some (r, s') → s'.length ≤ s.length := by
  intro n
  induction n with
  | zero =>
    intro s s' r h
    simp [vbus_read_frames] at h
    simp [h]
  | succ n ih =>
    intro s s' r h
    simp only [vbus_read_frames] at h
    split at h
    · simp at h
    · rename_i s1 heq
      simp only [Option.some.injEq, Prod.mk.injEq] at h
      rw [← h.2]
      exact vbus_read_frame_length heq
    · rename_i f s1 heq
      split at h
      · simp at h
      · rename_i s2 heq2
        simp only [Option.some.injEq, Prod.mk.injEq] at h
        rw [← h.2]
        exact Nat.le_trans (ih heq2) (vbus_read_frame_length heq)
      · rename_i fs s2 heq2
        simp only [Option.some.injEq, Prod.mk.injEq] at h
        rw [← h.2]
        exact Nat.le_trans (ih heq2) (vbus_read_frame_length heq)

theorem vbus_step_rehunt_length {s s' : List Nat} (h : vbus_step s = .rehunt s') :
    s'.length < s.length := by
  simp only [vbus_step] at h
  split at h
  · simp at h
  rename_i s1 hh
  have h1 : s1.length < s.length := vbus_hunt_length hh
  split at h
  · simp at h
  · rename_i s2 hrb
    simp only [StepResult.rehunt.injEq] at h
    rw [← h]
    exact Nat.lt_of_le_of_lt (vbus_read_bytes_length hrb) h1
  rename_i buffer s2 hrb
  have h2 : s2.length ≤ s1.length := vbus_read_bytes_length hrb
  split at h
  · simp only [StepResult.rehunt.injEq] at h
    rw [← h]
    exact Nat.lt_of_le_of_lt h2 h1
  rename_i pkt hph
  split at h
  · simp at h
  · rename_i s3 hrf
    simp only [StepResult.rehunt.injEq] at h
    rw [← h]
    exact Nat.lt_of_le_of_lt (Nat.le_trans (vbus_read_frames_length hrf) h2) h1
  · simp at h

theorem vbus_step_delivered_length {s s' : List Nat} {p : vbus_pkt}
    (h : vbus_step s = .delivered p s') : s'.length < s.length := by
  simp only [vbus_step] at h
  split at h
  · simp at h
  rename_i s1 hh
  have h1 : s1.length < s.length := vbus_hunt_length hh
  split at h
  · simp at h
  · simp at h
  rename_i buffer s2 hrb
  have h2 : s2.length ≤ s1.length := vbus_read_bytes_length hrb
  split at h
  · simp at h
  rename_i pkt hph
  split at h
  · simp at h
  · simp at h
  · rename_i payload s3 hrf
    simp only [StepResult.delivered.injEq] at h
    rw [← h.2]
    exact Nat.lt_of_le_of_lt (Nat.le_trans (vbus_read_frames_length hrf) h2) h1

/-- The full run of `vbus_thread` (vbus.c lines 154-187) on a finite
byte stream, as the ordered list of filter calls it makes together
with the thread's exit value.  The loop iterates `vbus_step`; when a
read fails (`StepResult.fini`) the thread exits through `vbus_fini`
with the ambient `errno`, and the `pthread_key` destructor
(`vbus_dtor` → `vbus_cleanup`, vbus.c lines 59-80) makes the one
final `filter(argp, NULL)` sentinel call before freeing the softc. -/
def vbus_loop (errno : Nat) (s : List Nat) : List vbus_event × Nat :=
  match h : vbus_step s with
  | .fini => ([vbus_event.sentinel], vbus_fini errno)
  | .rehunt s' => vbus_loop errno s'
  | .delivered p s' =>
    let r := vbus_loop errno s'
    (vbus_event.pkt p :: r.1, r.2)
termination_by s.length
decreasing_by
  · exact vbus_step_rehunt_length h
  · exact vbus_step_delivered_length h

theorem vbus_loop_fini {errno : Nat} {s : List Nat} (h : vbus_step s = .fini) :
    vbus_loop errno s = ([vbus_event.sentinel], vbus_fini errno) := by
  rw [vbus_loop]
  split
  · rfl
  · rename_i s' h'
    rw [h] at h'
    exact absurd h' (by simp)
  · rename_i p s' h'
    rw [h] at h'
    exact absurd h' (by simp)

theorem vbus_loop_rehunt {errno : Nat} {s s' : List Nat}
    (h : vbus_step s = .rehunt s') : vbus_loop errno s = vbus_loop errno s' := by
  rw [vbus_loop]
  split
  · rename_i h'
    rw [h] at h'
    exact absurd h' (by simp)
  · rename_i s'' h'
    rw [h] at h'
    simp only [StepResult.rehunt.injEq] at h'
    rw [h']
  · rename_i p s'' h'
    rw [h] at h'
    exact absurd h' (by simp)

theorem vbus_loop_delivered {errno : Nat} {s s' : List Nat} {p : vbus_pkt}
    (h : vbus_step s = .delivered p s') :
    vbus_loop errno s =
      (vbus_event.pkt p :: (vbus_loop errno s').1, (vbus_loop errno s').2) := by
  rw [vbus_loop]
  split
  · rename_i h'
    rw [h] at h'
    exact absurd h' (by simp)
  · rename_i s'' h'
    rw [h] at h'
    exact absurd h' (by simp)
  · rename_i p' s'' h'
    rw [h] at h'
    simp only [StepResult.delivered.injEq] at h'
    rw [h'.1, h'.2]

set_option maxRecDepth 4000 in
theorem and127_eq_mod : ∀ x < 256, x &&& 127 = x % 128 := by decide

theorem and127_lt (x : Nat) : (255 - x % 256) &&& 127 < 128 := by
  rw [and127_eq_mod (255 - x % 256) (by omega)]
  omega

theorem crc_sum_foldl (l : List Nat) :
    ∀ m : Nat,
      (List.range m).foldl (fun sum i => (sum + l.getD i 0) % 256) 0 =
        (l.take m).sum % 256 := by
  intro m
  induction m with
  | zero => simp
  | succ m ih =>
    rw [List.range_succ, List.foldl_append, ih, List.take_succ, List.sum_append]
    simp only [List.foldl_cons, List.foldl_nil, List.getD_eq_getElem?_getD]
    rcases hm : l[m]? with _ | v
    · simp only [hm, Option.getD_none, Option.toList_none, List.sum_nil, Nat.add_zero]
      omega
    · simp only [hm, Option.getD_some, Option.toList_some, List.sum_cons, List.sum_nil,
        Nat.add_zero]
      omega

theorem vbus_crc_sum_concat (data : List Nat) (c : Nat) :
    vbus_crc_sum (data ++ [c]) (data.length + 1) = data.sum % 256 := by
  unfold vbus_crc_sum
  rw [Nat.add_sub_cancel, crc_sum_foldl, List.take_left]

theorem vbus_crc_ok_concat (data : List Nat) (c : Nat) :
    vbus_crc_ok (data ++ [c]) (data.length + 1) =
      (((255 - data.sum % 256) &&& 127) == c) := by
  unfold vbus_crc_ok
  rw [vbus_crc_sum_concat, Nat.add_sub_cancel, List.getD_eq_getElem?_getD,
    List.getElem?_concat_length]
  rfl

theorem spec_crc_ok_concat (data : List Nat) (c : Nat) :
    spec_crc_ok (data ++ [c]) = (c == ((255 - data.sum % 256) &&& 127)) := by
  unfold spec_crc_ok
  rw [List.dropLast_concat, List.getLastD_concat]

theorem nat_or_eq_zero_iff (x y : Nat) : x ||| y = 0 ↔ x = 0 ∧ y = 0 := by
  constructor
  · intro h
    have hbit : ∀ i, x.testBit i = false ∧ y.testBit i = false := by
      intro i
      have h1 : (x ||| y).testBit i = false := by
        rw [h]
        exact Nat.zero_testBit i
      rw [Nat.testBit_or] at h1
      exact Bool.or_eq_false_iff.1 h1
    constructor
    · apply Nat.eq_of_testBit_eq
      intro i
      rw [(hbit i).1, Nat.zero_testBit]
    · apply Nat.eq_of_testBit_eq
      intro i
      rw [(hbit i).2, Nat.zero_testBit]
  · rintro ⟨rfl, rfl⟩
    rfl

set_option maxRecDepth 4000 in
theorem and128_of_ge : ∀ x < 256, 128 ≤ x → x &&& 128 = 128 := by decide

theorem vbus_crc_sum_lt (buffer : List Nat) (len : Nat) :
    vbus_crc_sum buffer len < 256 := by
  unfold vbus_crc_sum
  rcases Nat.eq_zero_or_pos (len - 1) with h | h
  · simp [h]
  · obtain ⟨m, hm⟩ : ∃ m, len - 1 = m + 1 := ⟨len - 1 - 1, by omega⟩
    rw [hm, List.range_succ, List.foldl_append]
    simp only [List.foldl_cons, List.foldl_nil]
    exact Nat.mod_lt _ (by norm_num)

theorem crc_val_ne_of_byte_ne (A B v v' : Nat) (hv : v < 128) (hv' : v' < 128)
    (hne : v' ≠ v) :
    (255 - (A + (v + B)) % 256) &&& 127 ≠ (255 - (A + (v' + B)) % 256) &&& 127 := by
  rw [and127_eq_mod _ (by omega), and127_eq_mod _ (by omega)]
  omega

theorem vbus_read_bytes_sound :
    ∀ {n : Nat} {s s' : List Nat} {buf : List Nat},
      vbus_read_bytes n s = some (some buf, s') →
        buf.length = n ∧ ∀ b ∈ buf, b &&& 0x80 = 0 := by
  intro n
  induction n with
  | zero =>
    intro s s' buf h
    simp [vbus_read_bytes] at h
    obtain ⟨rfl, -⟩ := h
    exact ⟨rfl, by simp⟩
  | succ n ih =>
    intro s s' buf h
    match s with
    | [] => simp [vbus_read_bytes, vbus_getc] at h
    | b :: rest =>
      simp only [vbus_read_bytes, vbus_getc] at h
      by_cases hb : b &&& 0x80 ≠ 0
      · simp [hb] at h
      · simp only [hb, if_false, ite_false] at h
        split at h
        · simp at h
        · simp at h
        · rename_i bs s'' heq
          simp only [Option.some.injEq, Prod.mk.injEq] at h
          obtain ⟨hbuf, _⟩ := h
          obtain ⟨hlen, hclean⟩ := ih heq
          rw [← hbuf]
          refine ⟨by simp [hlen], ?_⟩
          intro x hx
          rcases List.mem_cons.1 hx with rfl | hx'
          · omega
          · exact hclean x hx'

theorem vbus_read_frame_sound {s s' : List Nat} {payload : List Nat}
    (h : vbus_read_frame s = some (some payload, s')) :
    ∃ buffer : List Nat, buffer.length = VBUS_WIRE_FRAME ∧
      (∀ b ∈ buffer, b &&& 0x80 = 0) ∧
      vbus_crc_ok buffer VBUS_WIRE_FRAME = true ∧
      payload = vbus_frame_reconstruct buffer := by
  simp only [vbus_read_frame] at h
  split at h
  · simp at h
  · simp at h
  · rename_i buf s'' heq
    split at h
    · simp at h
    · rename_i hcrc
      simp only [Option.some.injEq, Prod.mk.injEq] at h
      obtain ⟨hlen, hclean⟩ := vbus_read_bytes_sound heq
      exact ⟨buf, hlen, hclean, by simpa using hcrc, h.1.symm⟩

theorem vbus_read_frames_sound :
    ∀ {n : Nat} {s s' : List Nat} {payload : List Nat},
      vbus_read_frames n s = some (some payload, s') →
        ∃ bufs : List (List Nat), bufs.length = n ∧
          (∀ buf ∈ bufs, buf.length = VBUS_WIRE_FRAME ∧
            (∀ b ∈ buf, b &&& 0x80 = 0) ∧
            vbus_crc_ok buf VBUS_WIRE_FRAME = true) ∧
          payload = (bufs.map vbus_frame_reconstruct).flatten := by
  intro n
  induction n with
  | zero =>
    intro s s' payload h
    simp [vbus_read_frames] at h
    exact ⟨[], rfl, by simp, by simp [h.1.symm]⟩
  | succ n ih =>
    intro s s' payload h
    simp only [vbus_read_frames] at h
    split at h
    · simp at h
    · simp at h
    · rename_i f s1 heq
      split at h
      · simp at h
      · simp at h
      · rename_i fs s2 heq2
        simp only [Option.some.injEq, Prod.mk.injEq] at h
        obtain ⟨buffer, hblen, hbclean, hbcrc, hf⟩ := vbus_read_frame_sound heq
        obtain ⟨bufs, hlen, hall, hfs⟩ := ih heq2
        refine ⟨buffer :: bufs, by simp [hlen], ?_, ?_⟩
        · intro buf hbuf
          rcases List.mem_cons.1 hbuf with rfl | hbuf'
          · exact ⟨hblen, hbclean, hbcrc⟩
          · exact hall buf hbuf'
        · rw [← h.1, hf, hfs]
          simp

theorem vbus_step_delivered_sound {s s' : List Nat} {p : vbus_pkt}
    (h : vbus_step s = .delivered p s') :
    ∃ hdr : List Nat, ∃ bufs : List (List Nat),
      hdr.length = VBUS_WIRE_HDR ∧
      (∀ b ∈ hdr, b &&& 0x80 = 0) ∧
      vbus_crc_ok hdr VBUS_WIRE_HDR = true ∧
      vbus_parse_header hdr = some ⟨p.dst, p.src, p.cmd, p.proto, p.frames, []⟩ ∧
      bufs.length = p.frames ∧
      (∀ buf ∈ bufs, buf.length = VBUS_WIRE_FRAME ∧
        (∀ b ∈ buf, b &&& 0x80 = 0) ∧
        vbus_crc_ok buf VBUS_WIRE_FRAME = true) ∧
      p.aux_data = (bufs.map vbus_frame_reconstruct).flatten := by
  simp only [vbus_step] at h
  split at h
  · simp at h
  rename_i s1 hh
  split at h
  · simp at h
  · simp at h
  rename_i buffer s2 hrb
  split at h
  · simp at h
  rename_i pkt hph
  split at h
  · simp at h
  · simp at h
  rename_i payload s3 hrf
  simp only [StepResult.delivered.injEq] at h
  obtain ⟨hp, -⟩ := h
  obtain ⟨hblen, hbclean⟩ := vbus_read_bytes_sound hrb
  obtain ⟨bufs, hlen, hall, hpl⟩ := vbus_read_frames_sound hrf
  have hcrc : vbus_crc_ok buffer VBUS_WIRE_HDR = true := by
    by_contra hc
    rw [vbus_parse_header, if_pos hc] at hph
    exact Option.noConfusion hph
  have hpkt : pkt =
      { dst := buffer.getD 0 0 ||| (buffer.getD 1 0 <<< 8)
        src := buffer.getD 2 0 ||| (buffer.getD 3 0 <<< 8)
        proto := buffer.getD 4 0
        cmd := buffer.getD 5 0 ||| (buffer.getD 6 0 <<< 8)
        frames := buffer.getD 7 0
        aux_data := [] } := by
    rw [vbus_parse_header, if_neg (by simp [hcrc])] at hph
    exact (Option.some.inj hph).symm
  subst hp
  refine ⟨buffer, bufs, hblen, hbclean, hcrc, ?_, ?_, hall, ?_⟩
  · rw [vbus_parse_header, if_neg (by simp [hcrc])]
    simp [hpkt]
  · simpa [hpkt] using hlen
  · simpa using hpl

theorem vbus_loop_pkt_sound (errno : Nat) (s : List Nat) (p : vbus_pkt)
    (hp : vbus_event.pkt p ∈ (vbus_loop errno s).1) :
    ∃ hdr : List Nat, ∃ bufs : List (List Nat),
      hdr.length = VBUS_WIRE_HDR ∧
      (∀ b ∈ hdr, b &&& 0x80 = 0) ∧
      vbus_crc_ok hdr VBUS_WIRE_HDR = true ∧
      vbus_parse_header hdr = some ⟨p.dst, p.src, p.cmd, p.proto, p.frames, []⟩ ∧
      bufs.length = p.frames ∧
      (∀ buf ∈ bufs, buf.length = VBUS_WIRE_FRAME ∧
        (∀ b ∈ buf, b &&& 0x80 = 0) ∧
        vbus_crc_ok buf VBUS_WIRE_FRAME = true) ∧
      p.aux_data = (bufs.map vbus_frame_reconstruct).flatten := by
  rcases h : vbus_step s with _ | s' | ⟨q, s'⟩
  · rw [vbus_loop_fini h] at hp
    simp at hp
  · rw [vbus_loop_rehunt h] at hp
    exact vbus_loop_pkt_sound errno s' p hp
  · rw [vbus_loop_delivered h] at hp
    rcases List.mem_cons.1 hp with heq | hmem
    · obtain rfl : p = q := vbus_event.pkt.inj heq
      exact vbus_step_delivered_sound h
    · exact vbus_loop_pkt_sound errno s' p hmem
termination_by s.length
decreasing_by
  · exact vbus_step_rehunt_length h
  · exact vbus_step_delivered_length h

theorem vbus_loop_shape (errno : Nat) (s : List Nat) :
    ∃ pre : List vbus_event,
      (vbus_loop errno s).1 = pre ++ [vbus_event.sentinel] ∧
      vbus_event.sentinel ∉ pre := by
  rcases h : vbus_step s with _ | s' | ⟨q, s'⟩
  · rw [vbus_loop_fini h]
    exact ⟨[], rfl, by simp⟩
  · rw [vbus_loop_rehunt h]
    exact vbus_loop_shape errno s'
  · rw [vbus_loop_delivered h]
    obtain ⟨pre, hpre, hmem⟩ := vbus_loop_shape errno s'
    exact ⟨vbus_event.pkt q :: pre, by simp [hpre], by simp [hmem]⟩
termination_by s.length
decreasing_by
  · exact vbus_step_rehunt_length h
  · exact vbus_step_delivered_length h

theorem vbus_loop_exit_value (errno : Nat) (s : List Nat) :
    (vbus_loop errno s).2 = vbus_fini errno := by
  rcases h : vbus_step s with _ | s' | ⟨q, s'⟩
  · rw [vbus_loop_fini h]
  · rw [vbus_loop_rehunt h]
    exact vbus_loop_exit_value errno s'
  · rw [vbus_loop_delivered h]
    exact vbus_loop_exit_value errno s'
termination_by s.length
decreasing_by
  · exact vbus_step_rehunt_length h
  · exact vbus_step_delivered_length h

theorem nat_beq_comm (a b : Nat) : (a == b) = (b == a) := by
  by_cases h : a = b
  · simp [h]
  · rw [beq_eq_false_iff_ne.2 h, beq_eq_false_iff_ne.2 (Ne.symm h)]

theorem ite_or_ne (x y : Nat) :
    (if (x ||| y) ≠ 0 then (0x80 : Nat) else 0) =
      if x ≠ 0 ∨ y ≠ 0 then 0x80 else 0 := by
  by_cases hx : x = 0
  · by_cases hy : y = 0
    · subst hx
      subst hy
      simp
    · subst hx
      simp [hy]
  · have hor : x ||| y ≠ 0 := fun hc => hx ((nat_or_eq_zero_iff x y).1 hc).1
    simp [hor, hx]

theorem vbus_read_bytes_cons (n : Nat) (b : Nat) (s : List Nat) :
    vbus_read_bytes (n + 1) (b :: s) =
      if b &&& 0x80 ≠ 0 then some (none, s)
      else
        match vbus_read_bytes n s with
        | none => none
        | some (none, s'') => some (none, s'')
        | some (some bs, s'') => some (some (b :: bs), s'') := rfl

theorem vbus_read_bytes_abort_last :
    ∀ (pre : List Nat) (bL : Nat) (rest : List Nat),
      (∀ b ∈ pre, b &&& 0x80 = 0) → bL &&& 0x80 ≠ 0 →
      vbus_read_bytes (pre.length + 1) (pre ++ bL :: rest) = some (none, rest) := by
  intro pre
  induction pre with
  | nil =>
    intro bL rest hpre hbL
    simp [vbus_read_bytes, vbus_getc, hbL]
  | cons b pre ih =>
    intro bL rest hpre hbL
    simp only [List.length_cons, List.cons_append]
    have hb : ¬ (b &&& 0x80 ≠ 0) := by simp [hpre b (by simp)]
    rw [vbus_read_bytes_cons, if_neg hb,
      ih bL rest (fun x hx => hpre x (by simp [hx])) hbL]

/-!
## Claim theorems
-/

/-- C1 (code bug): the frame [0x01, 0x00, 0x00, 0x00, 0x00, 0x7e] is
wire-clean and checksum-valid, yet the implemented reconstruction
(vbus.c lines 146-149) produces payload byte 0 = 0x80, while the
specified reconstruction `wireByte[0] | (bit 0 of map ? 0x80 : 0)`
produces 0x01: C precedence turns the intended bitwise merge into a
conditional, contradicting the code's own comment that the MSB byte
"contains the most significant bits for each of the prior 4 bytes". -/
theorem C1_reconstruction_precedence_bug :
    vbus_crc_ok [0x01, 0x00, 0x00, 0x00, 0x00, 0x7e] VBUS_WIRE_FRAME = true ∧
    (∀ b ∈ [0x01, 0x00, 0x00, 0x00, 0x00, 0x7e], b &&& 0x80 = 0) ∧
    vbus_frame_reconstruct [0x01, 0x00, 0x00, 0x00, 0x00, 0x7e] = [0x80, 0, 0, 0] ∧
    spec_frame_reconstruct [0x01, 0x00, 0x00, 0x00, 0x00, 0x7e] = [0x01, 0, 0, 0] ∧
    vbus_frame_reconstruct [0x01, 0x00, 0x00, 0x00, 0x00, 0x7e] ≠
      spec_frame_reconstruct [0x01, 0x00, 0x00, 0x00, 0x00, 0x7e] := by
  refine ⟨by decide, by decide, by decide, by decide, by decide⟩

/-- C2: for every span of length at least 1, `vbus_crc_ok` agrees
with the spec's description of the checksum: it accepts exactly when
the last byte equals the bitwise negation of the mod-256 sum of the
preceding bytes with the top bit cleared.  The same `vbus_crc_ok` is
the one applied to the 9-byte header (`vbus_parse_header`) and the
6-byte frame (`vbus_read_frame`), and it is a pure function of the
span. -/
theorem C2_crc_matches_spec (buffer : List Nat) (h : 1 ≤ buffer.length) :
    vbus_crc_ok buffer buffer.length = spec_crc_ok buffer := by
  rcases List.eq_nil_or_concat buffer with rfl | ⟨data, c, hbc⟩
  · simp at h
  · rw [List.concat_eq_append] at hbc
    subst hbc
    rw [show (data ++ [c]).length = data.length + 1 by simp,
      vbus_crc_ok_concat, spec_crc_ok_concat, nat_beq_comm]

/-- Witness for C2 at the concrete span [0x7f] of length 1. -/
theorem C2_crc_matches_spec_witness :
    1 ≤ ([0x7f] : List Nat).length ∧
    vbus_crc_ok [0x7f] ([0x7f] : List Nat).length = spec_crc_ok [0x7f] :=
  ⟨by decide, C2_crc_matches_spec [0x7f] (by decide)⟩

/-- C3: for every 9-byte span whose checksum validates, the header
decoder yields destination = byte0 | byte1<<8, source = byte2 |
byte3<<8, protocolRevision = byte4, command = byte5 | byte6<<8, and
frameCount = byte7. -/
theorem C3_header_fields (buffer : List Nat) (hlen : buffer.length = 9)
    (hok : vbus_crc_ok buffer VBUS_WIRE_HDR = true) :
    vbus_parse_header buffer = some
      { dst := buffer.getD 0 0 ||| (buffer.getD 1 0 <<< 8)
        src := buffer.getD 2 0 ||| (buffer.getD 3 0 <<< 8)
        proto := buffer.getD 4 0
        cmd := buffer.getD 5 0 ||| (buffer.getD 6 0 <<< 8)
        frames := buffer.getD 7 0
        aux_data := [] } := by
  rw [vbus_parse_header, if_neg (by simp [hok])]

/-- Witness for C3: the spec's worked example header
[0x34, 0x12, 0x00, 0x00, 0x01, 0x10, 0x00, 0x02] with its correct
checksum 0x26 decodes to destination 0x1234, source 0, protocol
revision 1, command 0x0010, frame count 2. -/
theorem C3_header_fields_witness :
    ([0x34, 0x12, 0x00, 0x00, 0x01, 0x10, 0x00, 0x02, 0x26] : List Nat).length = 9 ∧
    vbus_crc_ok [0x34, 0x12, 0x00, 0x00, 0x01, 0x10, 0x00, 0x02, 0x26] VBUS_WIRE_HDR = true ∧
    vbus_parse_header [0x34, 0x12, 0x00, 0x00, 0x01, 0x10, 0x00, 0x02, 0x26] =
      some ⟨0x1234, 0x0000, 0x0010, 1, 2, []⟩ := by
  refine ⟨by decide, by decide, ?_⟩
  have h := C3_header_fields [0x34, 0x12, 0x00, 0x00, 0x01, 0x10, 0x00, 0x02, 0x26]
    (by decide) (by decide)
  simpa using h

/-- C4: a (non-sentinel) packet is passed to the filter only if the
9-byte header span passed the checksum and decoded to the packet's
fields, and each of its `frames` frame spans independently passed
the top-bit scan and the frame checksum; the packet's payload is
exactly the concatenation of the decoders' outputs for those frames.
A header-valid attempt with any failing frame delivers nothing, since
`vbus_thread` jumps back to hunting before the filter call. -/
theorem C4_delivery_requires_all_checksums (errno : Nat) (s : List Nat)
    (p : vbus_pkt) (hp : vbus_event.pkt p ∈ (vbus_loop errno s).1) :
    ∃ hdr : List Nat, ∃ bufs : List (List Nat),
      hdr.length = VBUS_WIRE_HDR ∧
      (∀ b ∈ hdr, b &&& 0x80 = 0) ∧
      vbus_crc_ok hdr VBUS_WIRE_HDR = true ∧
      vbus_parse_header hdr = some ⟨p.dst, p.src, p.cmd, p.proto, p.frames, []⟩ ∧
      bufs.length = p.frames ∧
      (∀ buf ∈ bufs, buf.length = VBUS_WIRE_FRAME ∧
        (∀ b ∈ buf, b &&& 0x80 = 0) ∧
        vbus_crc_ok buf VBUS_WIRE_FRAME = true) ∧
      p.aux_data = (bufs.map vbus_frame_reconstruct).flatten :=
  vbus_loop_pkt_sound errno s p hp

/-- Witness for C4: a stream carrying one sync byte, a frameCount-2
header and two valid frames, on which the loop delivers the packet
⟨0, 0, 0, 0, 2, [0x80 × 8]⟩. -/
theorem C4_delivery_requires_all_checksums_witness :
    ∃ hdr : List Nat, ∃ bufs : List (List Nat),
      hdr.length = VBUS_WIRE_HDR ∧
      (∀ b ∈ hdr, b &&& 0x80 = 0) ∧
      vbus_crc_ok hdr VBUS_WIRE_HDR = true ∧
      vbus_parse_header hdr = some ⟨0, 0, 0, 0, 2, []⟩ ∧
      bufs.length = 2 ∧
      (∀ buf ∈ bufs, buf.length = VBUS_WIRE_FRAME ∧
        (∀ b ∈ buf, b &&& 0x80 = 0) ∧
        vbus_crc_ok buf VBUS_WIRE_FRAME = true) ∧
      ([128, 128, 128, 128, 128, 128, 128, 128] : List Nat) =
        (bufs.map vbus_frame_reconstruct).flatten :=
  C4_delivery_requires_all_checksums 0
    [0xaa, 0, 0, 0, 0, 0, 0, 0, 2, 0x7d,
     1, 2, 3, 4, 0, 0x75, 1, 2, 3, 4, 0, 0x75]
    ⟨0, 0, 0, 0, 2, [128, 128, 128, 128, 128, 128, 128, 128]⟩
    (by
      rw [@vbus_loop_delivered 0
            [0xaa, 0, 0, 0, 0, 0, 0, 0, 2, 0x7d,
             1, 2, 3, 4, 0, 0x75, 1, 2, 3, 4, 0, 0x75] []
            ⟨0, 0, 0, 0, 2, [128, 128, 128, 128, 128, 128, 128, 128]⟩ (by decide)]
      simp)

/-- C5 counterexample: a worker that terminates because the stream
ends while the ambient I/O error code is 5 (EIO) does not hand 5 to
the joiner: `vbus_fini` runs `pthread_exit(NULL)`, so `vbus_join`
obtains the null exit value 0, not the error code, falsifying "the
worker's exit value carries the underlying I/O error code". -/
theorem C5_counterexample : vbus_join (vbus_loop 5 []) ≠ 5 := by
  rw [@vbus_loop_fini 5 [] (by decide)]
  decide

/-- C5 amended: when the worker terminates because a read fails or
the stream ends, its exit value is the null pointer (0) regardless of
the underlying I/O error code, and the join operation returns exactly
that exit value to the caller. -/
theorem C5_join_returns_worker_exit (errno : Nat) (s : List Nat) :
    vbus_join (vbus_loop errno s) = vbus_fini errno ∧ vbus_fini errno = 0 :=
  ⟨vbus_loop_exit_value errno s, rfl⟩

/-- C6: over a whole worker run the filter receives the sentinel
exactly once, as the last call — i.e. after the worker has stopped
reading and after every packet delivery — and within `vbus_cleanup`
the sentinel call is the immediate predecessor of `free(sc)`, the
release of the worker's state, whatever the termios/fd flags. -/
theorem C6_sentinel_exactly_once (errno : Nat) (s : List Nat) :
    (vbus_loop errno s).1.count vbus_event.sentinel = 1 ∧
    (vbus_loop errno s).1.getLast? = some vbus_event.sentinel ∧
    ∀ do_stty fd_valid : Bool,
      (vbus_cleanup do_stty fd_valid true).count CleanupAction.filter_sentinel = 1 ∧
      ∃ pre : List CleanupAction,
        vbus_cleanup do_stty fd_valid true =
          pre ++ [CleanupAction.filter_sentinel, CleanupAction.free_softc] := by
  obtain ⟨pre, hpre, hmem⟩ := vbus_loop_shape errno s
  refine ⟨?_, ?_, ?_⟩
  · rw [hpre, List.count_append, List.count_eq_zero.2 hmem]
    rfl
  · rw [hpre, List.getLast?_concat]
  · intro do_stty fd_valid
    rcases do_stty <;> rcases fd_valid
    · exact ⟨by decide, [], by decide⟩
    · exact ⟨by decide, [CleanupAction.close_fd], by decide⟩
    · exact ⟨by decide, [CleanupAction.restore_termios], by decide⟩
    · exact ⟨by decide, [CleanupAction.restore_termios, CleanupAction.close_fd], by decide⟩

/-- C7 counterexample: [0x00, 0x00, 0x00, 0x00, 0x00, 0x7f] is a
6-byte span the validator accepts; changing its first byte to the
different value 0x80 — the checksum byte left untouched, so no
checksum was re-derived — still validates, because the validator
masks the complemented sum with 0x7f and a +0x80 change is invisible
mod 128.  This falsifies "changing any single byte ... makes the
checksum validator return false". -/
theorem C7_counterexample :
    vbus_crc_ok [0x00, 0x00, 0x00, 0x00, 0x00, 0x7f] 6 = true ∧
    vbus_crc_ok [0x80, 0x00, 0x00, 0x00, 0x00, 0x7f] 6 = true ∧
    (0x80 : Nat) ≠ 0x00 := by
  refine ⟨by decide, by decide, by decide⟩

/-- C7 amended: restricted to wire-clean values (top bit clear, as
every header/frame byte on the wire must be), the claim holds: for a
9- or 6-byte span of wire-clean bytes that the validator accepts,
replacing the byte at any one position with a different wire-clean
value makes the validator reject the mutated span. -/
theorem C7_single_mutation_fails (a b : List Nat) (v v' : Nat)
    (hlen : (a ++ v :: b).length = 9 ∨ (a ++ v :: b).length = 6)
    (hclean : ∀ x ∈ a ++ v :: b, x < 128) (hv' : v' < 128) (hne : v' ≠ v)
    (hok : vbus_crc_ok (a ++ v :: b) (a ++ v :: b).length = true) :
    vbus_crc_ok (a ++ v' :: b) (a ++ v' :: b).length = false := by
  have hv : v < 128 := hclean v (by simp)
  rcases List.eq_nil_or_concat b with rfl | ⟨b0, c, hb⟩
  · rw [show (a ++ v :: []).length = a.length + 1 by simp, vbus_crc_ok_concat] at hok
    rw [show (a ++ v' :: []).length = a.length + 1 by simp, vbus_crc_ok_concat]
    exact beq_eq_false_iff_ne.2 (fun hc => hne (hc.symm.trans (beq_iff_eq.1 hok)))
  · rw [List.concat_eq_append] at hb
    subst hb
    have hkey : ∀ w : Nat, a ++ w :: (b0 ++ [c]) = (a ++ w :: b0) ++ [c] := by
      intro w
      simp
    rw [hkey v, show ((a ++ v :: b0) ++ [c]).length = (a ++ v :: b0).length + 1 by
        simp
        omega,
      vbus_crc_ok_concat] at hok
    rw [hkey v', show ((a ++ v' :: b0) ++ [c]).length = (a ++ v' :: b0).length + 1 by
        simp
        omega,
      vbus_crc_ok_concat]
    rw [List.sum_append, List.sum_cons] at hok ⊢
    apply beq_eq_false_iff_ne.2
    intro hc
    exact crc_val_ne_of_byte_ne a.sum b0.sum v v' hv hv' hne
      ((beq_iff_eq.1 hok).trans hc.symm)

/-- Witness for C7 amended: mutating the first byte of the valid span
[0, 0, 0, 0, 0, 0x7f] to the wire-clean value 1 makes validation
fail. -/
theorem C7_single_mutation_fails_witness :
    vbus_crc_ok ([] ++ 1 :: [0, 0, 0, 0, 0x7f])
      ([] ++ 1 :: [0, 0, 0, 0, 0x7f] : List Nat).length = false :=
  C7_single_mutation_fails [] [0, 0, 0, 0, 0x7f] 0 1
    (Or.inr (by decide)) (by decide) (by decide) (by decide) (by decide)

/-- C8 (code bug): the condition on vbus.c line 207 evaluates to true
for the filename "-" (indeed for every non-null filename), because
`vbus_fn != NULL || strcmp(vbus_fn, "-") != 0` short-circuits on the
non-null pointer; so `open("-")` is attempted instead of using the
pre-opened stdin that the code's own comments promise ("- == stdin"). -/
theorem C8_dash_is_opened_anyway :
    vbus_should_open "-" = true ∧ ∀ fn : String, vbus_should_open fn = true :=
  ⟨rfl, fun _ => rfl⟩

/-- C9: the checksum value `vbus_crc_ok` computes is masked with 0x7f
and so always below 0x80; hence any span whose final byte has the top
bit set (the marker byte 0xaa included) fails validation.  For a
6-byte frame whose first five bytes are wire-clean and whose sixth
(checksum) byte has the top bit set, the decoder rejects: the top-bit
scan aborts at that byte (`vbus_read_frame` returns -1, modelled
`some (none, rest)`), and the checksum comparison on the same six
bytes fails as well, so the frame is rejected whichever check runs
first. -/
theorem C9_topbit_checksum_reject :
    (∀ buffer len, 1 ≤ len → 128 ≤ buffer.getD (len - 1) 0 →
      vbus_crc_ok buffer len = false) ∧
    (∀ b0 b1 b2 b3 b4 b5 rest,
      b0 &&& 0x80 = 0 → b1 &&& 0x80 = 0 → b2 &&& 0x80 = 0 →
      b3 &&& 0x80 = 0 → b4 &&& 0x80 = 0 → 128 ≤ b5 → b5 < 256 →
      vbus_read_frame (b0 :: b1 :: b2 :: b3 :: b4 :: b5 :: rest) = some (none, rest) ∧
      vbus_crc_ok [b0, b1, b2, b3, b4, b5] 6 = false) := by
  have hcrc : ∀ buffer len, 1 ≤ len → 128 ≤ buffer.getD (len - 1) 0 →
      vbus_crc_ok buffer len = false := by
    intro buffer len h1 h2
    unfold vbus_crc_ok
    apply beq_eq_false_iff_ne.2
    have hs : vbus_crc_sum buffer len < 256 := vbus_crc_sum_lt buffer len
    have hlt : (255 - vbus_crc_sum buffer len) &&& 127 < 128 := by
      rw [and127_eq_mod _ (by omega)]
      omega
    omega
  refine ⟨hcrc, ?_⟩
  intro b0 b1 b2 b3 b4 b5 rest h0 h1 h2 h3 h4 h5 h5'
  have hb5 : b5 &&& 0x80 ≠ 0 := by
    rw [and128_of_ge b5 h5' h5]
    norm_num
  have habort : vbus_read_bytes VBUS_WIRE_FRAME
      (b0 :: b1 :: b2 :: b3 :: b4 :: b5 :: rest) = some (none, rest) :=
    vbus_read_bytes_abort_last [b0, b1, b2, b3, b4] b5 rest
      (by
        intro x hx
        simp only [List.mem_cons, List.not_mem_nil, or_false] at hx
        rcases hx with rfl | rfl | rfl | rfl | rfl <;> assumption)
      hb5
  constructor
  · simp only [vbus_read_frame]
    rw [habort]
  · exact hcrc [b0, b1, b2, b3, b4, b5] 6 (by norm_num) (by simpa using h5)

/-- Witness for C9: the 1-byte span [0xaa] whose final byte is the
marker fails validation, and the frame [0, 0, 0, 0, 0, 0xaa] with
top-bit checksum byte is rejected by the decoder (nothing consumed
beyond it) and by the validator. -/
theorem C9_topbit_checksum_reject_witness :
    vbus_crc_ok [0xaa] 1 = false ∧
    vbus_read_frame [0, 0, 0, 0, 0, 0xaa] = some (none, []) ∧
    vbus_crc_ok [0, 0, 0, 0, 0, 0xaa] 6 = false := by
  refine ⟨C9_topbit_checksum_reject.1 [0xaa] 1 (by decide) (by decide), ?_, ?_⟩
  · exact (C9_topbit_checksum_reject.2 0 0 0 0 0 0xaa []
      (by decide) (by decide) (by decide) (by decide) (by decide)
      (by decide) (by decide)).1
  · exact (C9_topbit_checksum_reject.2 0 0 0 0 0 0xaa []
      (by decide) (by decide) (by decide) (by decide) (by decide)
      (by decide) (by decide)).2

/-- C10: as implemented, payload byte i of the frame decoder is 0x80
exactly when wire byte i is nonzero or bit i of the map byte (wire
byte 4) is set, and 0x00 otherwise — every reconstructed byte is 0x00
or 0x80. -/
theorem C10_reconstruction_as_implemented (buffer : List Nat) (i : Nat) (hi : i < 4) :
    (vbus_frame_reconstruct buffer).getD i 0 =
      if buffer.getD i 0 ≠ 0 ∨ buffer.getD 4 0 &&& 2 ^ i ≠ 0 then 0x80 else 0 := by
  interval_cases i
  · exact ite_or_ne (buffer.getD 0 0) (buffer.getD 4 0 &&& 1)
  · exact ite_or_ne (buffer.getD 1 0) (buffer.getD 4 0 &&& 2)
  · exact ite_or_ne (buffer.getD 2 0) (buffer.getD 4 0 &&& 4)
  · exact ite_or_ne (buffer.getD 3 0) (buffer.getD 4 0 &&& 8)

/-- Witness for C10 at buffer [1, 0, 0, 0, 2] and i = 1: wire byte 1
is zero but bit 1 of the map byte is set, so the output byte is
0x80. -/
theorem C10_reconstruction_as_implemented_witness :
    (vbus_frame_reconstruct [1, 0, 0, 0, 2]).getD 1 0 =
      if ([1, 0, 0, 0, 2] : List Nat).getD 1 0 ≠ 0 ∨
          ([1, 0, 0, 0, 2] : List Nat).getD 4 0 &&& 2 ^ 1 ≠ 0 then 0x80 else 0 :=
  C10_reconstruction_as_implemented [1, 0, 0, 0, 2] 1 (by decide)

-- sanity: the worked example of spec section 8
example : vbus_crc_ok [0x34, 0x12, 0x00, 0x00, 0x01, 0x10, 0x00, 0x02, 0x26] 9 = true := by
  decide

example :
    vbus_parse_header [0x34, 0x12, 0x00, 0x00, 0x01, 0x10, 0x00, 0x02, 0x26] =
      some ⟨0x1234, 0x0000, 0x0010, 1, 2, []⟩ := by
  decide

example : vbus_step [0xaa, 0, 0, 0, 0, 0, 0, 0, 0, 0x7f] =
    .delivered ⟨0, 0, 0, 0, 0, []⟩ [] := by decide

example : vbus_step ([] : List Nat) = .fini := by decide

example : vbus_loop 0 [0xaa, 0, 0, 0, 0, 0, 0, 0, 0, 0x7f] =
    ([vbus_event.pkt ⟨0, 0, 0, 0, 0, []⟩, vbus_event.sentinel], 0) := by
  rw [@vbus_loop_delivered 0 [0xaa, 0, 0, 0, 0, 0, 0, 0, 0, 0x7f] []
        ⟨0, 0, 0, 0, 0, []⟩ (by decide),
      @vbus_loop_fini 0 [] (by decide)]
  rfl

end Vbus
